import Mathlib

/-!
Verification of the self-healing build/fix pipeline of the Website-factory
repository.  The Python sources under `backend/app` are shallowly embedded:
strings are lists of characters, the MySQL incident store is an association
list, oracle (AI) responses are inputs, and the phase loops are fuel-indexed
recursive functions that mirror the `for` loops of
`backend/app/api/endpoints/generate.py`.
-/

/-- Python strings are modelled as lists of characters. -/
abbrev Str := List Char

/-- Coerce a Lean string literal into the model. -/
def str (s : String) : Str := s.data

/-- Python whitespace (the set stripped by `str.strip` and matched by the
regex class `\s`): space, tab, newline, carriage return, vertical tab,
form feed. -/
def pyIsSpace (c : Char) : Bool :=
  c = ' ' || c = '\t' || c = '\n' || c = '\r' || c = '\x0b' || c = '\x0c'

/-- Python `str.strip()`: drop whitespace from both ends. -/
def pyStrip (s : Str) : Str :=
  ((s.dropWhile pyIsSpace).reverse.dropWhile pyIsSpace).reverse

/-- `startsWith s p` : `p` is a prefix of `s` (Python `str.startswith`). -/
def startsWith : Str → Str → Bool
  | _, [] => true
  | [], _ :: _ => false
  | c :: cs, d :: ds => c = d && startsWith cs ds

/-- Python `str.endswith`. -/
def endsWith (s p : Str) : Bool := startsWith s.reverse p.reverse

/-- Python substring containment (`p in s`). -/
def containsSub : Str → Str → Bool
  | [], p => p.isEmpty
  | s@(_ :: rest), p => startsWith s p || containsSub rest p

/-- Split a string at the first occurrence of `pat`, returning the parts
before and after it; `none` when `pat` does not occur (the backbone of
`re.search` on the literal-headed patterns used by the signature
extractor). -/
def splitOnce (pat : Str) : Str → Option (Str × Str)
  | [] => if startsWith [] pat then some ([], ([] : Str).drop pat.length) else none
  | c :: rest =>
    if startsWith (c :: rest) pat then some ([], (c :: rest).drop pat.length)
    else (splitOnce pat rest).map (fun p => (c :: p.1, p.2))

/-- Does the string contain a newline? -/
def hasNl : Str → Bool
  | [] => false
  | c :: r => c = '\n' || hasNl r

/-- The characters before the first newline. -/
def lineOf : Str → Str
  | [] => []
  | c :: r => if c = '\n' then [] else c :: lineOf r

/-- `os.path.basename` on a POSIX path: the part after the last slash. -/
def basename (p : Str) : Str := (p.reverse.takeWhile (fun c => c ≠ '/')).reverse

/-- Python `min(c :: cs, key=len)`: the first element of minimal length. -/
def minByLenAux (best : Str) : List Str → Str
  | [] => best
  | c :: cs => if c.length < best.length then minByLenAux c cs else minByLenAux best cs

/-! ## Error Signature Extractor (`knowledge_base.create_error_signature`) -/

/-- The literal header of the first regex, `r"Error: (.*?)\n"`. -/
def errHdr : Str := str "Error: "

/-- The literal header of the jest regex, `r"● (.*?)\n\n\s*(.*?)\n"`. -/
def jestHdr : Str := str "● "

/-- Two consecutive newlines, the separator inside the jest regex. -/
def nlnl : Str := ['\n', '\n']

/-- `re.search(r"Error: (.*?)\n", log)`: the first `"Error: "` occurrence
followed (on the same line) by a newline; the captured group is the rest of
that line. -/
def buildErrorMatch (log : Str) : Option Str :=
  match splitOnce errHdr log with
  | none => none
  | some (_, rest) => if hasNl rest then some (lineOf rest) else none

/-- `re.search(r"● (.*?)\n\n\s*(.*?)\n", log, re.DOTALL)`: group 1 is the
text between the first `"● "` and the first blank line after it; group 2 is
the first line after the following whitespace run (empty when every
remaining newline lies inside that run). -/
def jestMatch (log : Str) : Option (Str × Str) :=
  match splitOnce jestHdr log with
  | none => none
  | some (_, rest) =>
    match splitOnce nlnl rest with
    | none => none
    | some (g1, t) =>
      if hasNl t then
        let r := t.dropWhile pyIsSpace
        some (g1, if hasNl r then lineOf r else [])
      else none

/-- `knowledge_base.create_error_signature`: try the build-error regex, then
the jest regex, else `None`. -/
def create_error_signature (log : Str) : Option Str :=
  match buildErrorMatch log with
  | some m => some (str "build_error:" ++ pyStrip m)
  | none =>
    match jestMatch log with
    | some (g1, g2) => some (str "jest_error:" ++ pyStrip g1 ++ ':' :: pyStrip g2)
    | none => none


/-! ## Incident Store (`knowledge_base.py` on the `debugging_incidents` table) -/

/-- One row of the `debugging_incidents` table. -/
structure Incident where
  error_signature : Str
  full_error_log : Str
  successful_fix_prompt : Str
  successful_patch : List (Str × Str)
  fix_agent : Str
  attempts_to_fix : Nat
  confidence_score : ℚ
deriving DecidableEq

/-- The table, in row order. -/
abbrev IncidentStore := List Incident

/-- `SELECT ... WHERE error_signature = sig` with `fetchone()`: the first
matching row. -/
def findIncident : IncidentStore → Str → Option Incident
  | [], _ => none
  | i :: rest, sig =>
    if i.error_signature = sig then some i else findIncident rest sig

/-- `UPDATE ... WHERE id = <id of the fetched row>`: rewrite the first row
with the given signature. -/
def updateFirst : IncidentStore → Str → (Incident → Incident) → IncidentStore
  | [], _, _ => []
  | i :: rest, sig, f =>
    if i.error_signature = sig then f i :: rest else i :: updateFirst rest sig f

/-- `knowledge_base.save_incident`: no-op when the signature, log or patch is
empty (`if not all([signature, log, patch_or_action]): return`); otherwise
upsert — add 1 to the confidence of an existing row, or insert a fresh row
whose confidence is the schema default 1.0. -/
def save_incident (db : IncidentStore) (sig log prompt : Str)
    (patch : List (Str × Str)) (agent : Str) (attempts : Nat) : IncidentStore :=
  if sig = [] ∨ log = [] ∨ patch = [] then db
  else
    match findIncident db sig with
    | some _ =>
      updateFirst db sig (fun i => { i with confidence_score := i.confidence_score + 1 })
    | none => db ++ [⟨sig, log, prompt, patch, agent, attempts, 1⟩]

/-- `knowledge_base.mark_solution_successful`: `UPDATE ... SET
confidence_score = confidence_score + 1.5 WHERE error_signature = sig`
(no-op on an empty signature). -/
def mark_solution_successful (db : IncidentStore) (sig : Str) : IncidentStore :=
  if sig = [] then db
  else db.map (fun i =>
    if i.error_signature = sig
    then { i with confidence_score := i.confidence_score + 3/2 } else i)

/-- `knowledge_base.mark_solution_failed`: `UPDATE ... SET confidence_score =
GREATEST(0.1, confidence_score - 0.5) WHERE error_signature = sig` (no-op on
an empty signature). -/
def mark_solution_failed (db : IncidentStore) (sig : Str) : IncidentStore :=
  if sig = [] then db
  else db.map (fun i =>
    if i.error_signature = sig
    then { i with confidence_score := max (1/10) (i.confidence_score - 1/2) } else i)

/-- The confidence recorded for a signature (0 when absent), used to compare
store states. -/
def confidenceOf (db : IncidentStore) (sig : Str) : ℚ :=
  ((findIncident db sig).map Incident.confidence_score).getD 0

/-! ## Artifact snapshot and the Fix-Cycle Controller
(`generate.py`, `run_fix_cycle`) -/

/-- An artifact snapshot: relative path ↦ file content, in insertion order
(Python dict). -/
abbrev Snapshot := List (Str × Str)

/-- Dict lookup (first binding wins). -/
def lookupSnap : Snapshot → Str → Option Str
  | [], _ => none
  | (k, v) :: rest, n => if k = n then some v else lookupSnap rest n

/-- `list(all_code_files.keys())`. -/
def snapKeys (snap : Snapshot) : List Str := snap.map Prod.fst

/-- A parsed diagnosis response (`file_to_fix` plus free-text fields). -/
structure Diagnosis where
  fileToFix : Str
  rootCause : Str
  fixSuggestion : Str

/-- A parsed patch-generation response (`filename` and `content`; a missing
key is modelled as the empty string, matching Python falsiness). -/
structure FixCode where
  filename : Str
  content : Str

/-- The reasoning-oracle responses consumed by one fix cycle.  `analysis` is
the parsed `relevant_files` list (`none` when `parse_json_from_ai` failed);
`diagnosis` is a function of the targeted codebase actually sent to the
debugger agent; `fixResponse` is a function of the resolved file and its
current code, the data sent to the dev agent. -/
structure FixOracle where
  analysis : Option (List Str)
  diagnosis : Snapshot → Option Diagnosis
  fixResponse : Str → Str → Option FixCode

/-- `analysis.get("relevant_files", []) if analysis else []`. -/
def relevantFilesOf (analysis : Option (List Str)) : List Str := analysis.getD []

/-- `{name: all_code_files[name] for name in relevant_files if name in
all_code_files}` — the codebase handed to the diagnosis step. -/
def diagnosisCodebase (analysis : Option (List Str)) (snap : Snapshot) : Snapshot :=
  (relevantFilesOf analysis).filterMap
    (fun n => (lookupSnap snap n).map (fun v => (n, v)))

/-- The suffix candidates of the path matcher:
`[f for f in all_code_files.keys() if f.endswith(file_to_fix)]`. -/
def suffixCandidates (avail : List Str) (t : Str) : List Str :=
  avail.filter (fun f => endsWith f t)

/-- The basename-containment candidates:
`[f for f in all_code_files.keys() if base_name in f]`. -/
def containCandidates (avail : List Str) (t : Str) : List Str :=
  avail.filter (fun f => containsSub f (basename t))

/-- The "intelligent file path matching" of `run_fix_cycle` (Step 4): exact
dict-key match; else suffix candidates (a unique one, or the shortest); else
basename-containment candidates (the shortest); else unresolved. -/
def resolveTarget (avail : List Str) (t : Str) : Option Str :=
  if t ∈ avail then some t
  else
    match suffixCandidates avail t with
    | [] =>
      match containCandidates avail t with
      | [] => none
      | c :: cs => some (minByLenAux c cs)
    | [c] => some c
    | c :: cs => some (minByLenAux c cs)

/-- Modelled from the spec: `file_handler.write_file` is called by the fix
cycle and the phases but its definition is absent from the provided sources;
the spec describes it as "full-file overwrite, creating parent directories
as needed", so it is modelled as replacing the content bound to the path
when present and appending the binding otherwise. -/
def writeFile (snap : Snapshot) (name content : Str) : Snapshot :=
  if name ∈ snapKeys snap then
    snap.map (fun p => if p.1 = name then (p.1, content) else p)
  else snap ++ [(name, content)]

/-- The observable outcome of one fix cycle: the returned flag, the files
written to the artifact store, the `fix_prompt` payload (resolved file and
its current code) sent to the dev agent, and the artifact tree afterwards. -/
structure FixResult where
  success : Bool
  writes : List (Str × Str)
  fixPrompt : Option (Str × Str)
  tree : Snapshot
  signature : Option Str

/-- The tail of `run_fix_cycle` from Step 4 on, as a function of the parsed
diagnosis response: path resolution → patch request → write.  Every
early-exit (`return False`) leaves the artifact tree untouched.  The write,
when it happens, uses `fix_code.get("filename")`, not the resolved path. -/
def fixCycleWithDiagnosis (errorLog : Str) (snap : Snapshot) (o : FixOracle) :
    Option Diagnosis → FixResult
  | none => ⟨false, [], none, snap, create_error_signature errorLog⟩
  | some d =>
    match resolveTarget (snapKeys snap) d.fileToFix with
    | none => ⟨false, [], none, snap, create_error_signature errorLog⟩
    | some matched =>
      let codeToFix := (lookupSnap snap matched).getD []
      match o.fixResponse matched codeToFix with
      | none => ⟨false, [], some (matched, codeToFix), snap,
          create_error_signature errorLog⟩
      | some fc =>
        if fc.filename = [] ∨ fc.content = [] then
          ⟨false, [], some (matched, codeToFix), snap,
            create_error_signature errorLog⟩
        else
          ⟨true, [(fc.filename, fc.content)], some (matched, codeToFix),
            writeFile snap fc.filename fc.content,
            create_error_signature errorLog⟩

/-- `generate.py`, `run_fix_cycle`: derive the signature, snapshot the tree,
run the relevance analysis, restrict the snapshot to the analysed subset,
hand exactly that subset to the diagnosis step, then resolve, patch and
write. -/
def run_fix_cycle (errorLog : Str) (snap : Snapshot) (o : FixOracle) : FixResult :=
  fixCycleWithDiagnosis errorLog snap o
    (o.diagnosis (diagnosisCodebase o.analysis snap))

/-! ## Build/Test runners -/

/-- An external command abstracted by whether it ever terminates, how long
it runs, whether its exit code is zero, and its combined output. -/
structure Command where
  terminates : Bool
  duration : Nat
  exitOk : Bool
  output : Str

/-- `e2e_tester.run_command_stream`: `await process.communicate()` with no
timeout — `none` models a call that never returns because the command never
terminates. -/
def e2e_run_command_stream (c : Command) : Option (Bool × Str) :=
  if c.terminates then some (c.exitOk, c.output) else none

/-- `component_tester.run_command_stream`: identical to the `e2e_tester`
version, also without a timeout. -/
def component_run_command_stream (c : Command) : Option (Bool × Str) :=
  if c.terminates then some (c.exitOk, c.output) else none

/-- The diagnostic returned by the timeout branch of the `test_generator`
revision. -/
def timeoutMsg (t : Nat) : Str :=
  str "Command timed out after " ++ (Nat.repr t).data ++ str " seconds."

/-- `test_generator.run_command_stream`: `asyncio.wait_for(...,
timeout=timeout)` (default 600); on timeout the process is killed and the
call returns `(False, diagnostic)`. -/
def tg_run_command_stream (c : Command) (timeout : Nat := 600) : Bool × Str :=
  if c.terminates && decide (c.duration ≤ timeout) then (c.exitOk, c.output)
  else (false, timeoutMsg timeout)

/-! ## Phase Orchestrator (`generate.py`, phases 3 and 5 and the endpoint) -/

/-- The observable outcome of one iteration of the phase-3 loop: the build
gate result, whether the dependency-issue marker pair (`"Cannot find
module"` together with `"node_modules"`) appears in the build log, and
whether the fix cycle reported an applied patch. -/
structure Attempt3 where
  buildOk : Bool
  depIssue : Bool
  fixApplied : Bool

/-- The loop body of `phase3_host_and_fix_frontend`, fuel-indexed: `fuel`
counts this and the remaining iterations, so `fuel = 1` is the last budgeted
attempt (`attempt == MAX_FIX_ATTEMPTS`), and running out of fuel is the
`for` loop falling through to the trailing `return True`. -/
def phase3Aux (env : Nat → Attempt3) : Nat → Nat → Bool
  | 0, _ => true
  | fuel + 1, attempt =>
    if (env attempt).buildOk then true
    else if (env attempt).depIssue then phase3Aux env fuel (attempt + 1)
    else if (env attempt).fixApplied then phase3Aux env fuel (attempt + 1)
    else if fuel = 0 then false
    else phase3Aux env fuel (attempt + 1)

/-- `phase3_host_and_fix_frontend`: up to `MAX_FIX_ATTEMPTS = 10` build
attempts starting at attempt 1. -/
def phase3_host_and_fix_frontend (env : Nat → Attempt3) : Bool :=
  phase3Aux env 10 1

/-- The observable outcome of one iteration of the phase-5 loop: the API
test-gate result and whether the fix cycle reported an applied patch. -/
structure Attempt5 where
  testOk : Bool
  fixApplied : Bool

/-- The loop body of `phase5_test_and_fix_apis`, fuel-indexed like
`phase3Aux` (`MAX_FIX_ATTEMPTS = 5`); running out of fuel is the `for` loop
falling through to the trailing `return True`. -/
def phase5Aux (env : Nat → Attempt5) : Nat → Nat → Bool
  | 0, _ => true
  | fuel + 1, attempt =>
    if (env attempt).testOk then true
    else if (env attempt).fixApplied then phase5Aux env fuel (attempt + 1)
    else if fuel = 0 then false
    else phase5Aux env fuel (attempt + 1)

/-- `phase5_test_and_fix_apis`: fails outright when the API test file could
not be generated, otherwise runs up to 5 test attempts. -/
def phase5_test_and_fix_apis (testGenOk : Bool) (env : Nat → Attempt5) : Bool :=
  if testGenOk then phase5Aux env 5 1 else false

/-- The environment of one `generate_website` run: the session id returned
by `create_session` (empty when the ledger insert failed), the outcomes of
the plan step and of each phase, and whether an unexpected exception is
raised inside the `try` block. -/
structure RunEnv where
  sessionId : Str
  planOk : Bool
  componentsNonempty : Bool
  p3 : Nat → Attempt3
  p5gen : Bool
  p5 : Nat → Attempt5
  e2eOk : Bool
  unexpectedError : Bool

/-- The `final_status` value passed to the ledger in the `finally` block:
it is `"SUCCESS"` only when control reaches the assignment after phase 6 and
the E2E step, i.e. when no exception was raised — the plan parsed, phase 1
produced components and phase 3 returned `True`.  The results of phase 5 and
of the E2E tests are printed but do not affect it. -/
def finalStatus (env : RunEnv) : Str :=
  if env.unexpectedError then str "FAILED"
  else if env.planOk = false then str "FAILED"
  else if env.componentsNonempty = false then str "FAILED"
  else if phase3_host_and_fix_frontend env.p3 = false then str "FAILED"
  else str "SUCCESS"

/-- Does the caller of the endpoint receive the success response?  (`True`
exactly when the `return` at the end of the `try` block is reached; on any
exception an `HTTPException` with status 500 is raised instead.) -/
def callerSuccess (env : RunEnv) : Bool :=
  finalStatus env = str "SUCCESS"

/-- The completion writes issued to the session ledger by `generate_website`:
the `finally` block performs exactly one `update_session_status` call, and
`update_session_status` returns without writing when the session id is
empty. -/
def ledgerWrites (env : RunEnv) : List (Str × Str) :=
  if env.sessionId = [] then [] else [(env.sessionId, finalStatus env)]

/-- The `generation_sessions` table: session id ↦ status. -/
abbrev SessionTable := List (Str × Str)

/-- `knowledge_base.update_session_status`: no-op on an empty session id,
otherwise `UPDATE generation_sessions SET final_status = status WHERE
session_id = sid`. -/
def update_session_status (tbl : SessionTable) (sid status : Str) : SessionTable :=
  if sid = [] then tbl
  else tbl.map (fun p => if p.1 = sid then (p.1, status) else p)

/-- Replay a list of ledger writes against the sessions table. -/
def applyLedger (tbl : SessionTable) : List (Str × Str) → SessionTable
  | [] => tbl
  | (sid, status) :: rest => applyLedger (update_session_status tbl sid status) rest

/-- The invariant of §3 of the spec: every stored confidence is positive. -/
def storeInv (db : IncidentStore) : Prop := ∀ i ∈ db, 0 < i.confidence_score

/-! ## Supporting lemmas -/
example : create_error_signature (str "Error: boom\nstack") =
    some (str "build_error:boom") := by decide

example : create_error_signature (str "● Header renders\n\n  expected true\nmore") =
    some (str "jest_error:Header renders:expected true") := by decide

example : create_error_signature (str "all fine") = none := by decide


theorem dropLenAppend (a b : Str) : (a ++ b).drop a.length = b := by
  induction a with
  | nil => simp
  | cons c cs ih =>
    rw [List.length_cons, List.cons_append, List.drop_succ_cons]
    exact ih

theorem startsWith_nil (s : Str) : startsWith s [] = true := by
  cases s <;> rfl

theorem startsWith_append_self (p s : Str) : startsWith (p ++ s) p = true := by
  induction p with
  | nil => exact startsWith_nil s
  | cons c cs ih => simp [startsWith, ih]

theorem splitOnce_cons_pos (pat : Str) (c : Char) (rest : Str)
    (h : startsWith (c :: rest) pat = true) :
    splitOnce pat (c :: rest) = some ([], (c :: rest).drop pat.length) := by
  rw [splitOnce, if_pos h]

theorem splitOnce_cons_neg (pat : Str) (c : Char) (rest : Str)
    (h : startsWith (c :: rest) pat = false) :
    splitOnce pat (c :: rest) = (splitOnce pat rest).map (fun p => (c :: p.1, p.2)) := by
  rw [splitOnce, if_neg (by simp [h])]

theorem splitOnce_marker (hc : Char) (tl pre mid : Str) (h : hc ∉ pre) :
    splitOnce (hc :: tl) (pre ++ (hc :: (tl ++ mid))) = some (pre, mid) := by
  induction pre with
  | nil =>
    have h1 : startsWith (hc :: (tl ++ mid)) (hc :: tl) = true :=
      startsWith_append_self (hc :: tl) mid
    rw [List.nil_append, splitOnce_cons_pos (hc :: tl) hc (tl ++ mid) h1]
    simp [dropLenAppend]
  | cons c cs ih =>
    have hcne : c ≠ hc := by
      intro e
      exact h (by simp [e])
    have hstep : startsWith (c :: (cs ++ (hc :: (tl ++ mid)))) (hc :: tl) = false := by
      simp [startsWith, hcne]
    rw [List.cons_append, splitOnce_cons_neg _ _ _ hstep,
      ih (fun m => h (List.mem_cons_of_mem _ m))]
    rfl

theorem hasNl_append (msg post : Str) : hasNl (msg ++ '\n' :: post) = true := by
  induction msg with
  | nil => simp [hasNl]
  | cons c cs ih => simp [hasNl, ih]

theorem lineOf_append (msg post : Str) (h : '\n' ∉ msg) :
    lineOf (msg ++ '\n' :: post) = msg := by
  induction msg with
  | nil => simp [lineOf]
  | cons c cs ih =>
    have hc : c ≠ '\n' := by
      rintro rfl
      exact h (by simp)
    simp [lineOf, hc, ih (fun m => h (List.mem_cons_of_mem _ m))]

theorem splitOnce_none_of_not_contains (pat s : Str)
    (h : containsSub s pat = false) : splitOnce pat s = none := by
  induction s with
  | nil =>
    have hp : startsWith [] pat = false := by
      cases pat with
      | nil => simp [containsSub] at h
      | cons d ds => rfl
    rw [splitOnce, if_neg (by simp [hp])]
  | cons c cs ih =>
    rw [containsSub, Bool.or_eq_false_iff] at h
    rw [splitOnce_cons_neg _ _ _ h.1, ih h.2]
    rfl

theorem minByLenAux_mem (c : Str) (cs : List Str) : minByLenAux c cs ∈ c :: cs := by
  induction cs generalizing c with
  | nil => simp [minByLenAux]
  | cons d ds ih =>
    rw [minByLenAux]
    split
    · have := ih d
      simp only [List.mem_cons] at this ⊢
      tauto
    · have := ih c
      simp only [List.mem_cons] at this ⊢
      tauto

theorem minByLenAux_len (c : Str) (cs : List Str) :
    ∀ x ∈ c :: cs, (minByLenAux c cs).length ≤ x.length := by
  induction cs generalizing c with
  | nil =>
    intro x hx
    simp only [List.mem_cons, List.not_mem_nil, or_false] at hx
    subst hx
    simp [minByLenAux]
  | cons d ds ih =>
    intro x hx
    rw [minByLenAux]
    simp only [List.mem_cons] at hx
    by_cases hlt : d.length < c.length
    · rw [if_pos hlt]
      rcases hx with h1 | h1 | h1
      · rw [h1]
        have h2 := ih d d (by simp)
        omega
      · rw [h1]
        exact ih d d (by simp)
      · exact ih d x (by simp [h1])
    · rw [if_neg hlt]
      rcases hx with h1 | h1 | h1
      · rw [h1]
        exact ih c c (by simp)
      · rw [h1]
        have h2 := ih c c (by simp)
        omega
      · exact ih c x (by simp [h1])

theorem lookupSnap_none_of_not_mem (snap : Snapshot) (n : Str)
    (h : n ∉ snapKeys snap) : lookupSnap snap n = none := by
  induction snap with
  | nil => rfl
  | cons p rest ih =>
    rcases p with ⟨k, v⟩
    simp only [snapKeys, List.map_cons, List.mem_cons] at h
    push_neg at h
    rw [lookupSnap, if_neg (fun e => h.1 e.symm)]
    exact ih (by simpa [snapKeys] using h.2)

theorem lookupSnap_append_some (s t : Snapshot) (n v : Str)
    (h : lookupSnap s n = some v) : lookupSnap (s ++ t) n = some v := by
  induction s with
  | nil => exact absurd h (by simp [lookupSnap])
  | cons p rest ih =>
    rcases p with ⟨k, w⟩
    rw [lookupSnap] at h
    rw [List.cons_append, lookupSnap]
    by_cases hk : k = n
    · rw [if_pos hk] at h ⊢
      exact h
    · rw [if_neg hk] at h ⊢
      exact ih h

theorem lookupSnap_append_none (s t : Snapshot) (n : Str)
    (h : lookupSnap s n = none) : lookupSnap (s ++ t) n = lookupSnap t n := by
  induction s with
  | nil => rfl
  | cons p rest ih =>
    rcases p with ⟨k, w⟩
    rw [lookupSnap] at h
    rw [List.cons_append, lookupSnap]
    by_cases hk : k = n
    · rw [if_pos hk] at h
      exact absurd h (by simp)
    · rw [if_neg hk] at h ⊢
      exact ih h

theorem lookupSnap_update_self (snap : Snapshot) (n c : Str)
    (h : n ∈ snapKeys snap) :
    lookupSnap (snap.map (fun p => if p.1 = n then (p.1, c) else p)) n = some c := by
  induction snap with
  | nil => simp [snapKeys] at h
  | cons p rest ih =>
    rcases p with ⟨k, v⟩
    simp only [List.map_cons]
    by_cases hk : k = n
    · subst hk
      rw [if_pos rfl, lookupSnap, if_pos rfl]
    · rw [if_neg hk, lookupSnap, if_neg hk]
      refine ih ?_
      simp only [snapKeys, List.map_cons, List.mem_cons] at h
      rcases h with h1 | h1
      · exact absurd h1.symm hk
      · simpa [snapKeys] using h1

theorem lookupSnap_update_ne (snap : Snapshot) (n c m : Str) (h : m ≠ n) :
    lookupSnap (snap.map (fun p => if p.1 = n then (p.1, c) else p)) m =
      lookupSnap snap m := by
  induction snap with
  | nil => rfl
  | cons p rest ih =>
    rcases p with ⟨k, v⟩
    simp only [List.map_cons]
    by_cases hk : k = n
    · rw [if_pos hk]
      have hkm : ¬ k = m := fun e => h (e ▸ hk ▸ rfl)
      rw [lookupSnap, if_neg hkm, lookupSnap, if_neg hkm]
      exact ih
    · rw [if_neg hk]
      rw [lookupSnap, lookupSnap]
      by_cases hkm : k = m
      · rw [if_pos hkm, if_pos hkm]
      · rw [if_neg hkm, if_neg hkm]
        exact ih

theorem lookupSnap_writeFile_self (snap : Snapshot) (n c : Str) :
    lookupSnap (writeFile snap n c) n = some c := by
  unfold writeFile
  split_ifs with h
  · exact lookupSnap_update_self snap n c h
  · rw [lookupSnap_append_none _ _ _ (lookupSnap_none_of_not_mem snap n h)]
    rw [lookupSnap, if_pos rfl]

theorem lookupSnap_writeFile_ne (snap : Snapshot) (n c m : Str) (h : m ≠ n) :
    lookupSnap (writeFile snap n c) m = lookupSnap snap m := by
  unfold writeFile
  split_ifs with hmem
  · exact lookupSnap_update_ne snap n c m h
  · cases hv : lookupSnap snap m with
    | some v => rw [lookupSnap_append_some _ _ _ _ hv]
    | none =>
      rw [lookupSnap_append_none _ _ _ hv, lookupSnap,
        if_neg (fun e => h e.symm)]
      rfl

theorem updateFirst_length (db : IncidentStore) (sig : Str) (f : Incident → Incident) :
    (updateFirst db sig f).length = db.length := by
  induction db with
  | nil => rfl
  | cons i rest ih =>
    rw [updateFirst]
    split_ifs with h
    · simp
    · simp [ih]

theorem mem_updateFirst (db : IncidentStore) (sig : Str) (f : Incident → Incident)
    (j : Incident) (h : j ∈ updateFirst db sig f) : j ∈ db ∨ ∃ i ∈ db, j = f i := by
  induction db with
  | nil => exact absurd h (by simp [updateFirst])
  | cons i rest ih =>
    rw [updateFirst] at h
    split_ifs at h with hi
    · rcases List.mem_cons.mp h with h1 | h1
      · exact Or.inr ⟨i, by simp, h1⟩
      · exact Or.inl (List.mem_cons_of_mem _ h1)
    · rcases List.mem_cons.mp h with h1 | h1
      · exact Or.inl (by simp [h1])
      · rcases ih h1 with h2 | ⟨i2, hmem, he⟩
        · exact Or.inl (List.mem_cons_of_mem _ h2)
        · exact Or.inr ⟨i2, List.mem_cons_of_mem _ hmem, he⟩

theorem findIncident_updateFirst (db : IncidentStore) (sig : Str)
    (f : Incident → Incident) (hf : ∀ x, (f x).error_signature = x.error_signature)
    (i : Incident) (h : findIncident db sig = some i) :
    findIncident (updateFirst db sig f) sig = some (f i) := by
  induction db with
  | nil => exact absurd h (by simp [findIncident])
  | cons j rest ih =>
    rw [findIncident] at h
    rw [updateFirst]
    by_cases hj : j.error_signature = sig
    · rw [if_pos hj] at h ⊢
      rw [findIncident, if_pos (by rw [hf j]; exact hj)]
      rw [Option.some_inj] at h
      rw [h]
    · rw [if_neg hj] at h ⊢
      rw [findIncident, if_neg hj]
      exact ih h

theorem findIncident_append_none (db l : IncidentStore) (sig : Str)
    (h : findIncident db sig = none) :
    findIncident (db ++ l) sig = findIncident l sig := by
  induction db with
  | nil => rfl
  | cons j rest ih =>
    rw [findIncident] at h
    rw [List.cons_append, findIncident]
    by_cases hj : j.error_signature = sig
    · rw [if_pos hj] at h
      exact absurd h (by simp)
    · rw [if_neg hj] at h ⊢
      exact ih h

theorem save_incident_find (db : IncidentStore) (sig log prompt : Str)
    (patch : List (Str × Str)) (agent : Str) (attempts : Nat)
    (hs : sig ≠ []) (hl : log ≠ []) (hp : patch ≠ []) :
    findIncident (save_incident db sig log prompt patch agent attempts) sig =
      some (match findIncident db sig with
            | some i => { i with confidence_score := i.confidence_score + 1 }
            | none => ⟨sig, log, prompt, patch, agent, attempts, 1⟩) := by
  unfold save_incident
  rw [if_neg (by simp [hs, hl, hp])]
  cases h : findIncident db sig with
  | some i =>
    dsimp only
    exact findIncident_updateFirst db sig
      (fun i => { i with confidence_score := i.confidence_score + 1 })
      (fun x => rfl) i h
  | none =>
    dsimp only
    rw [findIncident_append_none _ _ _ h]
    simp [findIncident]


/-! ## Claim theorems -/

/-- Claim C1 (counterexample).  The claim requires a *unique*
basename-containment match and says ambiguous matches abort the cycle
without writing.  Counterexample: for diagnosis target `"x.tsx"` with
available files `["src/x.tsx1", "lib/x.tsx2"]` there is no exact and no
suffix match, and *two* distinct basename-containment matches — yet the
resolver returns the first shortest candidate instead of `none`, and the
cycle goes on to write a patch. -/
theorem resolve_target_ambiguous_containment_counterexample :
    str "x.tsx" ∉ [str "src/x.tsx1", str "lib/x.tsx2"] ∧
    suffixCandidates [str "src/x.tsx1", str "lib/x.tsx2"] (str "x.tsx") = [] ∧
    (containCandidates [str "src/x.tsx1", str "lib/x.tsx2"] (str "x.tsx")).length = 2 ∧
    resolveTarget [str "src/x.tsx1", str "lib/x.tsx2"] (str "x.tsx") =
      some (str "src/x.tsx1") ∧
    (run_fix_cycle (str "Error: e\n")
        [(str "src/x.tsx1", str "a"), (str "lib/x.tsx2", str "b")]
        ⟨none, fun _ => some ⟨str "x.tsx", str "rc", str "fx"⟩,
          fun _ _ => some ⟨str "src/x.tsx1", str "patched"⟩⟩).writes =
      [(str "src/x.tsx1", str "patched")] := by
  refine ⟨by decide, by decide, by decide, by decide, by decide⟩

/-- Claim C1 (amended).  Resolution of a diagnosis target against the
artifact snapshot tries, in order: exact path match; unique suffix match;
shortest-path tie-break among multiple suffix matches; basename-containment
matches resolved by shortest path (first among ties) rather than requiring
uniqueness; and only when *no* candidate at all is found does the cycle
return failure without writing any file to the artifact tree. -/
theorem run_fix_cycle_target_resolution_amended
    (avail : List Str) (t f c : Str) (cs : List Str)
    (log : Str) (snap : Snapshot) (o : FixOracle) (d : Diagnosis) :
    (t ∈ avail → resolveTarget avail t = some t) ∧
    (t ∉ avail → suffixCandidates avail t = [f] → resolveTarget avail t = some f) ∧
    (t ∉ avail → suffixCandidates avail t = c :: cs →
      resolveTarget avail t = some (minByLenAux c cs) ∧
      minByLenAux c cs ∈ suffixCandidates avail t ∧
      ∀ x ∈ suffixCandidates avail t, (minByLenAux c cs).length ≤ x.length) ∧
    (t ∉ avail → suffixCandidates avail t = [] → containCandidates avail t = c :: cs →
      resolveTarget avail t = some (minByLenAux c cs) ∧
      minByLenAux c cs ∈ containCandidates avail t ∧
      ∀ x ∈ containCandidates avail t, (minByLenAux c cs).length ≤ x.length) ∧
    (t ∉ avail → suffixCandidates avail t = [] → containCandidates avail t = [] →
      resolveTarget avail t = none) ∧
    (o.diagnosis (diagnosisCodebase o.analysis snap) = some d →
      resolveTarget (snapKeys snap) d.fileToFix = none →
      (run_fix_cycle log snap o).success = false ∧
      (run_fix_cycle log snap o).writes = [] ∧
      (run_fix_cycle log snap o).tree = snap) := by
  refine ⟨?_, ?_, ?_, ?_, ?_, ?_⟩
  · intro h
    unfold resolveTarget
    rw [if_pos h]
  · intro h hs
    unfold resolveTarget
    rw [if_neg h, hs]
  · intro h hs
    refine ⟨?_, ?_, ?_⟩
    · unfold resolveTarget
      rw [if_neg h, hs]
      cases cs with
      | nil => rfl
      | cons c2 cs2 => rfl
    · rw [hs]
      exact minByLenAux_mem c cs
    · rw [hs]
      exact minByLenAux_len c cs
  · intro h hs hcc
    refine ⟨?_, ?_, ?_⟩
    · unfold resolveTarget
      rw [if_neg h, hs, hcc]
    · rw [hcc]
      exact minByLenAux_mem c cs
    · rw [hcc]
      exact minByLenAux_len c cs
  · intro h hs hcc
    unfold resolveTarget
    rw [if_neg h, hs, hcc]
  · intro hd hres
    have h1 : run_fix_cycle log snap o =
        ⟨false, [], none, snap, create_error_signature log⟩ := by
      unfold run_fix_cycle
      rw [hd]
      simp only [fixCycleWithDiagnosis]
      rw [hres]
    exact ⟨by rw [h1], by rw [h1], by rw [h1]⟩

/-- Claim C1 (witness): the spec's own scenario — target `"page.tsx"` with
only `"app/page.tsx"` available resolves by unique suffix match. -/
theorem run_fix_cycle_target_resolution_amended_witness :
    resolveTarget [str "app/page.tsx"] (str "page.tsx") = some (str "app/page.tsx") :=
  (run_fix_cycle_target_resolution_amended [str "app/page.tsx"] (str "page.tsx")
      (str "app/page.tsx") [] [] [] []
      ⟨none, fun _ => none, fun _ _ => none⟩ ⟨[], [], []⟩).2.1 (by decide) (by decide)

/-- Claim C3 (code-bug evaluation).  Both fix loops fall through their
`for` statement to a trailing `return True`: when the gate fails on every
attempt but a patch is applied on the last one, the phase reports success
without ever re-running its verification gate (and prints its
phase-complete message), contradicting the phase-transition rule and the
functions' own docstrings. -/
theorem phase_advance_without_reverification_eval :
    phase3_host_and_fix_frontend (fun _ => ⟨false, false, true⟩) = true ∧
    phase5_test_and_fix_apis true (fun _ => ⟨false, true⟩) = true :=
  ⟨rfl, rfl⟩

/-- Claim C8 (counterexample).  The runners actually used by the
orchestrator (`e2e_tester.run_command_stream` and
`component_tester.run_command_stream`) await `process.communicate()` with no
timeout: on a command that never terminates the call never returns
(modelled as `none`), so not every build/test command is awaited with an
explicit timeout. -/
theorem runner_no_timeout_counterexample :
    e2e_run_command_stream ⟨false, 0, false, []⟩ = none ∧
    component_run_command_stream ⟨false, 0, false, []⟩ = none :=
  ⟨rfl, rfl⟩

/-- Claim C8 (amended).  Only the `test_generator` revision of
`run_command_stream` wraps the await in `asyncio.wait_for` with an explicit
timeout (default 600 s), killing the process and returning failure with a
diagnostic on expiry; the `e2e_tester` and `component_tester` runners used
by the orchestrator wait without any timeout and block forever on a
non-terminating command. -/
theorem runner_timeout_amended (c : Command) (t : Nat) :
    (c.terminates = false → e2e_run_command_stream c = none) ∧
    (c.terminates = false → component_run_command_stream c = none) ∧
    (c.terminates = true → e2e_run_command_stream c = some (c.exitOk, c.output)) ∧
    (c.terminates = true → component_run_command_stream c = some (c.exitOk, c.output)) ∧
    (t < c.duration → tg_run_command_stream c t = (false, timeoutMsg t)) ∧
    (c.terminates = true → c.duration ≤ t →
      tg_run_command_stream c t = (c.exitOk, c.output)) := by
  refine ⟨?_, ?_, ?_, ?_, ?_, ?_⟩
  · intro h
    simp [e2e_run_command_stream, h]
  · intro h
    simp [component_run_command_stream, h]
  · intro h
    simp [e2e_run_command_stream, h]
  · intro h
    simp [component_run_command_stream, h]
  · intro h
    simp [tg_run_command_stream, Nat.not_le.mpr h]
  · intro h1 h2
    simp [tg_run_command_stream, h1, h2]

/-- Claim C8 (witness): a hung command makes the e2e runner never return; a
601-second command against the 600-second budget of the test_generator
runner is killed and reported failed; a 5-second command passes through. -/
theorem runner_timeout_amended_witness :
    e2e_run_command_stream ⟨false, 3, true, str "out"⟩ = none ∧
    tg_run_command_stream ⟨true, 601, true, str "out"⟩ 600 = (false, timeoutMsg 600) ∧
    tg_run_command_stream ⟨true, 5, true, str "out"⟩ 600 = (true, str "out") :=
  ⟨(runner_timeout_amended ⟨false, 3, true, str "out"⟩ 600).1 rfl,
   (runner_timeout_amended ⟨true, 601, true, str "out"⟩ 600).2.2.2.2.1 (by decide),
   (runner_timeout_amended ⟨true, 5, true, str "out"⟩ 600).2.2.2.2.2 rfl (by decide)⟩

/-- Claim C10 (confirmed).  When the fix cycle applies a patch, the file
actually written is the `filename` field of the patch-generation response,
not the resolved target: the resolved file only selects the code sent in
the patch request (`fix_prompt`), and when the response names a different
path the resolved file's content is left unchanged while the response's
path is (over)written. -/
theorem patch_write_uses_response_filename
    (log : Str) (snap : Snapshot) (o : FixOracle) (d : Diagnosis) (m : Str)
    (fc : FixCode)
    (hd : o.diagnosis (diagnosisCodebase o.analysis snap) = some d)
    (hm : resolveTarget (snapKeys snap) d.fileToFix = some m)
    (hf : o.fixResponse m ((lookupSnap snap m).getD []) = some fc)
    (hn : ¬ fc.filename = []) (hc : ¬ fc.content = []) :
    (run_fix_cycle log snap o).success = true ∧
    (run_fix_cycle log snap o).writes = [(fc.filename, fc.content)] ∧
    (run_fix_cycle log snap o).fixPrompt = some (m, (lookupSnap snap m).getD []) ∧
    (run_fix_cycle log snap o).tree = writeFile snap fc.filename fc.content ∧
    (fc.filename ≠ m →
      lookupSnap (run_fix_cycle log snap o).tree m = lookupSnap snap m) ∧
    lookupSnap (run_fix_cycle log snap o).tree fc.filename = some fc.content := by
  have h1 : run_fix_cycle log snap o =
      ⟨true, [(fc.filename, fc.content)], some (m, (lookupSnap snap m).getD []),
        writeFile snap fc.filename fc.content, create_error_signature log⟩ := by
    unfold run_fix_cycle
    rw [hd]
    simp only [fixCycleWithDiagnosis]
    rw [hm]
    dsimp only
    rw [hf]
    dsimp only
    rw [if_neg (by simp [hn, hc])]
  refine ⟨by rw [h1], by rw [h1], by rw [h1], by rw [h1], ?_, ?_⟩
  · intro hne
    rw [h1]
    exact lookupSnap_writeFile_ne snap fc.filename fc.content m (Ne.symm hne)
  · rw [h1]
    exact lookupSnap_writeFile_self snap fc.filename fc.content

/-- Claim C10 (witness): diagnosis names `page.tsx`, which resolves to
`app/page.tsx`, but the patch response says `src/page.tsx`: the write goes
to `src/page.tsx` and `app/page.tsx` keeps its old content. -/
theorem patch_write_uses_response_filename_witness :
    (run_fix_cycle (str "Error: x\n") [(str "app/page.tsx", str "old")]
        ⟨some [str "app/page.tsx"],
          fun _ => some ⟨str "page.tsx", str "rc", str "fx"⟩,
          fun _ _ => some ⟨str "src/page.tsx", str "new"⟩⟩).writes =
      [(str "src/page.tsx", str "new")] ∧
    lookupSnap (run_fix_cycle (str "Error: x\n") [(str "app/page.tsx", str "old")]
        ⟨some [str "app/page.tsx"],
          fun _ => some ⟨str "page.tsx", str "rc", str "fx"⟩,
          fun _ _ => some ⟨str "src/page.tsx", str "new"⟩⟩).tree (str "app/page.tsx") =
      lookupSnap [(str "app/page.tsx", str "old")] (str "app/page.tsx") :=
  ⟨(patch_write_uses_response_filename (str "Error: x\n")
      [(str "app/page.tsx", str "old")]
      ⟨some [str "app/page.tsx"],
        fun _ => some ⟨str "page.tsx", str "rc", str "fx"⟩,
        fun _ _ => some ⟨str "src/page.tsx", str "new"⟩⟩
      ⟨str "page.tsx", str "rc", str "fx"⟩ (str "app/page.tsx")
      ⟨str "src/page.tsx", str "new"⟩ rfl (by decide) rfl (by decide) (by decide)).2.1,
   (patch_write_uses_response_filename (str "Error: x\n")
      [(str "app/page.tsx", str "old")]
      ⟨some [str "app/page.tsx"],
        fun _ => some ⟨str "page.tsx", str "rc", str "fx"⟩,
        fun _ _ => some ⟨str "src/page.tsx", str "new"⟩⟩
      ⟨str "page.tsx", str "rc", str "fx"⟩ (str "app/page.tsx")
      ⟨str "src/page.tsx", str "new"⟩ rfl (by decide) rfl (by decide) (by decide)).2.2.2.2.1
      (by decide)⟩

/-- Claim C4 (counterexample).  When the relevance analysis yields nothing
usable, `run_fix_cycle` does *not* fall back to the full snapshot: the
targeted codebase handed to diagnosis is empty.  The oracle below returns a
diagnosis only when its input codebase is empty, and the cycle succeeds —
proof that the diagnosis step received the empty subset, not the full
snapshot. -/
theorem diagnosis_snapshot_no_fallback_counterexample :
    diagnosisCodebase none [(str "app/page.tsx", str "code")] = [] ∧
    diagnosisCodebase (some []) [(str "app/page.tsx", str "code")] = [] ∧
    [(str "app/page.tsx", str "code")] ≠ ([] : Snapshot) ∧
    (run_fix_cycle (str "Error: e\n") [(str "app/page.tsx", str "code")]
        ⟨none,
          fun cb => if cb.isEmpty then some ⟨str "app/page.tsx", str "rc", str "fx"⟩
            else none,
          fun _ _ => some ⟨str "app/page.tsx", str "fixed"⟩⟩).success = true := by
  refine ⟨rfl, rfl, by decide, by decide⟩

/-- Claim C4 (amended).  The codebase passed to the diagnosis step is
exactly the subset of the snapshot selected by the file-relevance analysis
(every entry of it is a binding of the snapshot named by the analysis); when
the analysis returns nothing usable — an unparseable response or an empty
file list — the subset is empty and diagnosis receives an *empty* codebase,
with no fallback to the full snapshot. -/
theorem diagnosis_snapshot_subset_amended
    (analysis : Option (List Str)) (snap : Snapshot) (log : Str) (o : FixOracle) :
    (∀ p ∈ diagnosisCodebase analysis snap,
      p.1 ∈ relevantFilesOf analysis ∧ lookupSnap snap p.1 = some p.2) ∧
    (analysis = none → diagnosisCodebase analysis snap = []) ∧
    (relevantFilesOf analysis = [] → diagnosisCodebase analysis snap = []) ∧
    run_fix_cycle log snap o =
      fixCycleWithDiagnosis log snap o (o.diagnosis (diagnosisCodebase o.analysis snap)) := by
  refine ⟨?_, ?_, ?_, rfl⟩
  · intro p hp
    unfold diagnosisCodebase at hp
    rcases List.mem_filterMap.mp hp with ⟨n, hn, he⟩
    rcases Option.map_eq_some'.mp he with ⟨v, hv, hvp⟩
    rw [← hvp]
    exact ⟨hn, hv⟩
  · rintro rfl
    rfl
  · intro h
    unfold diagnosisCodebase
    rw [h]
    rfl

/-- Claim C4 (witness): with analysis `["a"]` over snapshot `[("a","v")]`
the targeted entry is a snapshot binding named by the analysis; with a
failed analysis the targeted codebase is empty. -/
theorem diagnosis_snapshot_subset_amended_witness :
    (str "a" ∈ relevantFilesOf (some [str "a"]) ∧
      lookupSnap [(str "a", str "v")] (str "a") = some (str "v")) ∧
    diagnosisCodebase none [(str "a", str "v")] = [] :=
  ⟨(diagnosis_snapshot_subset_amended (some [str "a"]) [(str "a", str "v")] []
      ⟨none, fun _ => none, fun _ _ => none⟩).1 (str "a", str "v") (by decide),
   (diagnosis_snapshot_subset_amended none [(str "a", str "v")] []
      ⟨none, fun _ => none, fun _ _ => none⟩).2.1 rfl⟩

theorem finalStatus_of_phase3_false (env : RunEnv)
    (h3 : phase3_host_and_fix_frontend env.p3 = false) :
    finalStatus env = str "FAILED" := by
  unfold finalStatus
  split_ifs <;> rfl

/-- Claim C2 (counterexample).  Exhausting phase 5's retry budget is *not* a
hard failure: with all five API-test attempts failing and no fix applied,
`phase5_test_and_fix_apis` returns `False`, yet `generate_website` prints
"continuing with integration", finishes, records `SUCCESS` in the ledger
and returns the success response to the caller. -/
theorem budget_exhaustion_phase5_success_counterexample :
    phase5_test_and_fix_apis true (fun _ => ⟨false, false⟩) = false ∧
    finalStatus ⟨str "sid", true, true, fun _ => ⟨true, false, false⟩, true,
      fun _ => ⟨false, false⟩, true, false⟩ = str "SUCCESS" ∧
    callerSuccess ⟨str "sid", true, true, fun _ => ⟨true, false, false⟩, true,
      fun _ => ⟨false, false⟩, true, false⟩ = true := by
  refine ⟨rfl, by decide, by decide⟩

/-- Claim C2 (amended).  Exhausting the frontend-build phase's budget
(phase 3 returning `False`) is a hard failure: the session's final status
is `FAILED` and the caller receives a non-success result, and a `SUCCESS`
status implies phase 3 succeeded.  The final status is, however,
independent of the phase-5 (API-test) outcome and of the E2E result, so
exhausting phase 5's budget does not fail the session. -/
theorem budget_exhaustion_phase3_hard_failure (env : RunEnv) :
    (phase3_host_and_fix_frontend env.p3 = false →
      finalStatus env = str "FAILED" ∧ callerSuccess env = false) ∧
    (finalStatus env = str "SUCCESS" → phase3_host_and_fix_frontend env.p3 = true) ∧
    (∀ g : Bool, ∀ p5 : Nat → Attempt5, ∀ e : Bool,
      finalStatus { env with p5gen := g, p5 := p5, e2eOk := e } = finalStatus env) := by
  refine ⟨?_, ?_, ?_⟩
  · intro h3
    have hf := finalStatus_of_phase3_false env h3
    refine ⟨hf, ?_⟩
    unfold callerSuccess
    rw [hf]
    decide
  · intro hs
    cases hp : phase3_host_and_fix_frontend env.p3
    · rw [finalStatus_of_phase3_false env hp] at hs
      exact absurd hs (by decide)
    · rfl
  · intro g p5 e
    rfl

/-- Claim C2 (witness): a run whose phase 3 fails on every attempt ends
with ledger status FAILED and a non-success result. -/
theorem budget_exhaustion_phase3_hard_failure_witness :
    finalStatus ⟨str "s", true, true, fun _ => ⟨false, false, false⟩, true,
      fun _ => ⟨true, false⟩, true, false⟩ = str "FAILED" ∧
    callerSuccess ⟨str "s", true, true, fun _ => ⟨false, false, false⟩, true,
      fun _ => ⟨true, false⟩, true, false⟩ = false :=
  (budget_exhaustion_phase3_hard_failure ⟨str "s", true, true,
      fun _ => ⟨false, false, false⟩, true, fun _ => ⟨true, false⟩, true, false⟩).1
    (by decide)

/-- Claim C9 (confirmed).  For every run whose session began (non-empty
session id), the `finally` block issues exactly one completion write,
carrying a terminal status (`SUCCESS` or `FAILED`) — on every execution
path, raising phases included — and replaying the run's writes against a
ledger holding the `IN_PROGRESS` row yields that single terminal status,
never overwritten by any later write of the run. -/
theorem session_ledger_terminal_once (env : RunEnv) (h : env.sessionId ≠ []) :
    ledgerWrites env = [(env.sessionId, finalStatus env)] ∧
    (ledgerWrites env).length = 1 ∧
    (finalStatus env = str "SUCCESS" ∨ finalStatus env = str "FAILED") ∧
    applyLedger [(env.sessionId, str "IN_PROGRESS")] (ledgerWrites env) =
      [(env.sessionId, finalStatus env)] := by
  have hw : ledgerWrites env = [(env.sessionId, finalStatus env)] := by
    unfold ledgerWrites
    rw [if_neg h]
  refine ⟨hw, by rw [hw]; rfl, ?_, ?_⟩
  · unfold finalStatus
    split_ifs
    · exact Or.inr rfl
    · exact Or.inr rfl
    · exact Or.inr rfl
    · exact Or.inr rfl
    · exact Or.inl rfl
  · rw [hw]
    simp only [applyLedger]
    unfold update_session_status
    rw [if_neg h]
    simp

/-- Claim C9 (witness): a session id `"s"` with a clean run gets exactly
one terminal ledger write. -/
theorem session_ledger_terminal_once_witness :
    ledgerWrites ⟨str "s", true, true, fun _ => ⟨true, false, false⟩, true,
        fun _ => ⟨true, false⟩, true, false⟩ =
      [(str "s", finalStatus ⟨str "s", true, true, fun _ => ⟨true, false, false⟩, true,
        fun _ => ⟨true, false⟩, true, false⟩)] ∧
    (ledgerWrites ⟨str "s", true, true, fun _ => ⟨true, false, false⟩, true,
        fun _ => ⟨true, false⟩, true, false⟩).length = 1 :=
  ⟨(session_ledger_terminal_once ⟨str "s", true, true, fun _ => ⟨true, false, false⟩,
      true, fun _ => ⟨true, false⟩, true, false⟩ (by decide)).1,
   (session_ledger_terminal_once ⟨str "s", true, true, fun _ => ⟨true, false, false⟩,
      true, fun _ => ⟨true, false⟩, true, false⟩ (by decide)).2.1⟩

/-- Claim C5 (counterexample).  `save_incident` begins with
`if not all([signature, log, patch_or_action]): return`, so a call with an
empty log inserts nothing even though its signature is not present in the
store — "for every signature not present it inserts one new record" fails
as stated. -/
theorem save_incident_empty_log_counterexample :
    findIncident [] (str "build_error:x") = none ∧
    save_incident [] (str "build_error:x") [] (str "p") [(str "f", str "c")]
      (str "a") 1 = [] := by
  refine ⟨rfl, by decide⟩

/-- Claim C5 (amended).  For calls whose signature, log and patch are all
non-empty, `save_incident` is an upsert: an absent signature gets exactly
one new row with confidence 1.0 appended; a present signature has its first
matching row's confidence incremented by 1 with the row count unchanged;
and saving the same signature twice yields confidence exactly one higher
than — in particular never lower than — a single save. -/
theorem save_incident_upsert_amended
    (db : IncidentStore) (sig log prompt : Str) (patch : List (Str × Str))
    (agent : Str) (attempts : Nat) (i₀ : Incident)
    (hs : sig ≠ []) (hl : log ≠ []) (hp : patch ≠ []) :
    (findIncident db sig = none →
      save_incident db sig log prompt patch agent attempts =
        db ++ [⟨sig, log, prompt, patch, agent, attempts, 1⟩]) ∧
    (findIncident db sig = some i₀ →
      (save_incident db sig log prompt patch agent attempts).length = db.length ∧
      findIncident (save_incident db sig log prompt patch agent attempts) sig =
        some { i₀ with confidence_score := i₀.confidence_score + 1 }) ∧
    confidenceOf (save_incident (save_incident db sig log prompt patch agent attempts)
        sig log prompt patch agent attempts) sig =
      confidenceOf (save_incident db sig log prompt patch agent attempts) sig + 1 ∧
    confidenceOf (save_incident db sig log prompt patch agent attempts) sig ≤
      confidenceOf (save_incident (save_incident db sig log prompt patch agent attempts)
        sig log prompt patch agent attempts) sig := by
  have hguard : ¬(sig = [] ∨ log = [] ∨ patch = []) := by simp [hs, hl, hp]
  have hinc : confidenceOf (save_incident
      (save_incident db sig log prompt patch agent attempts)
      sig log prompt patch agent attempts) sig =
      confidenceOf (save_incident db sig log prompt patch agent attempts) sig + 1 := by
    have h1 := save_incident_find db sig log prompt patch agent attempts hs hl hp
    have h2 := save_incident_find (save_incident db sig log prompt patch agent attempts)
      sig log prompt patch agent attempts hs hl hp
    rw [h1] at h2
    dsimp only at h2
    unfold confidenceOf
    rw [h1, h2]
    rfl
  refine ⟨?_, ?_, hinc, by rw [hinc]; linarith⟩
  · intro hnone
    unfold save_incident
    rw [if_neg hguard, hnone]
  · intro hsome
    constructor
    · unfold save_incident
      rw [if_neg hguard, hsome]
      dsimp only
      exact updateFirst_length db sig _
    · have h1 := save_incident_find db sig log prompt patch agent attempts hs hl hp
      rw [hsome] at h1
      dsimp only at h1
      exact h1

/-- Claim C5 (witness): a fresh save of a non-empty incident inserts one
record at confidence 1.0. -/
theorem save_incident_upsert_amended_witness :
    save_incident [] (str "s") (str "l") (str "p") [(str "f", str "c")] (str "a") 2 =
      [] ++ [⟨str "s", str "l", str "p", [(str "f", str "c")], str "a", 2, 1⟩] :=
  (save_incident_upsert_amended [] (str "s") (str "l") (str "p") [(str "f", str "c")]
      (str "a") 2 ⟨[], [], [], [], [], 0, 0⟩ (by decide) (by decide) (by decide)).1 rfl

/-- Claim C6 (confirmed).  Every confidence-adjusting operation of the
incident store preserves positivity of all stored confidences: creation
starts at 1.0, the upsert adds 1, reinforcement adds 1.5, and the penalty
is `GREATEST(0.1, score - 0.5)`, which clamps any penalised record at the
positive floor 0.1 regardless of its previous value. -/
theorem confidence_positive_invariant
    (db : IncidentStore) (sig log prompt : Str) (patch : List (Str × Str))
    (agent : Str) (attempts : Nat) (hinv : storeInv db) :
    storeInv (save_incident db sig log prompt patch agent attempts) ∧
    storeInv (mark_solution_successful db sig) ∧
    storeInv (mark_solution_failed db sig) ∧
    (∀ j ∈ mark_solution_failed db sig, sig ≠ [] → j.error_signature = sig →
      0 < j.confidence_score) := by
  refine ⟨?_, ?_, ?_, ?_⟩
  · unfold save_incident
    split_ifs with hguard
    · exact hinv
    · cases hfind : findIncident db sig with
      | some i0 =>
        dsimp only
        intro j hj
        rcases mem_updateFirst db sig _ j hj with h1 | ⟨i2, hm, he⟩
        · exact hinv j h1
        · rw [he]
          have h0 := hinv i2 hm
          change 0 < i2.confidence_score + 1
          linarith
      | none =>
        dsimp only
        intro j hj
        rcases List.mem_append.mp hj with h1 | h1
        · exact hinv j h1
        · rw [List.mem_singleton] at h1
          rw [h1]
          show (0 : ℚ) < 1
          norm_num
  · unfold mark_solution_successful
    split_ifs with hguard
    · exact hinv
    · intro j hj
      rcases List.mem_map.mp hj with ⟨i2, hm, he⟩
      rw [← he]
      split_ifs with hcase
      · have h0 := hinv i2 hm
        change 0 < i2.confidence_score + 3/2
        linarith
      · exact hinv i2 hm
  · unfold mark_solution_failed
    split_ifs with hguard
    · exact hinv
    · intro j hj
      rcases List.mem_map.mp hj with ⟨i2, hm, he⟩
      rw [← he]
      split_ifs with hcase
      · change 0 < max (1/10) (i2.confidence_score - 1/2)
        have h0 : (0 : ℚ) < 1/10 := by norm_num
        exact lt_of_lt_of_le h0 (le_max_left _ _)
      · exact hinv i2 hm
  · intro j hj hsig hjs
    unfold mark_solution_failed at hj
    rw [if_neg hsig] at hj
    rcases List.mem_map.mp hj with ⟨i2, hm, he⟩
    by_cases hcase : i2.error_signature = sig
    · rw [← he, if_pos hcase]
      change 0 < max (1/10) (i2.confidence_score - 1/2)
      have h0 : (0 : ℚ) < 1/10 := by norm_num
      exact lt_of_lt_of_le h0 (le_max_left _ _)
    · rw [← he, if_neg hcase] at hjs
      exact absurd hjs hcase

/-- Claim C6 (witness): penalising the only record (confidence 2.0) of a
store clamps it to `max 0.1 (2 - 0.5)`, still positive. -/
theorem confidence_positive_invariant_witness :
    0 < (Incident.mk (str "s") (str "l") (str "p") [(str "f", str "c")]
      (str "a") 1 (max (1/10) (2 - 1/2))).confidence_score :=
  (confidence_positive_invariant
      [⟨str "s", str "l", str "p", [(str "f", str "c")], str "a", 1, 2⟩]
      (str "s") (str "l") (str "p") [(str "f", str "c")] (str "a") 1
      (by unfold storeInv; intro i hi; rw [List.mem_singleton] at hi; rw [hi]; norm_num)).2.2.2
    ⟨str "s", str "l", str "p", [(str "f", str "c")], str "a", 1, max (1/10) (2 - 1/2)⟩
    (List.mem_singleton.mpr rfl) (by decide) rfl

theorem create_error_signature_header (pre msg post : Str)
    (hE : 'E' ∉ pre) (hmsg : '\n' ∉ msg) :
    create_error_signature (pre ++ errHdr ++ msg ++ '\n' :: post) =
      some (str "build_error:" ++ pyStrip msg) := by
  have h2 : pre ++ errHdr ++ msg ++ '\n' :: post =
      pre ++ ('E' :: (str "rror: " ++ (msg ++ '\n' :: post))) := by
    rw [show errHdr = 'E' :: str "rror: " from rfl]
    simp [List.append_assoc]
  have hsplit : splitOnce errHdr (pre ++ errHdr ++ msg ++ '\n' :: post) =
      some (pre, msg ++ '\n' :: post) := by
    rw [h2]
    exact splitOnce_marker 'E' (str "rror: ") pre (msg ++ '\n' :: post) hE
  have hb : buildErrorMatch (pre ++ errHdr ++ msg ++ '\n' :: post) = some msg := by
    unfold buildErrorMatch
    rw [hsplit]
    dsimp only
    rw [hasNl_append msg post]
    simp [lineOf_append msg post hmsg]
  unfold create_error_signature
  rw [hb]

/-- Claim C7 (counterexample).  The extractor is *not* stable under every
whitespace-only variation: two logs describing the same defect that differ
only in internal whitespace of the error line both have a recognizable
header but produce different signatures, since `.strip()` removes only
leading/trailing whitespace of the captured message. -/
theorem signature_internal_whitespace_counterexample :
    (create_error_signature (str "Error: x  y\n")).isSome = true ∧
    (create_error_signature (str "Error: x y\n")).isSome = true ∧
    create_error_signature (str "Error: x  y\n") ≠
      create_error_signature (str "Error: x y\n") := by
  refine ⟨by decide, by decide, by decide⟩

/-- Claim C7 (amended).  `create_error_signature` is a deterministic pure
function of the log (equal logs give equal results); for a log whose first
`Error:` header follows a prefix free of `E` (e.g. timestamps) the key is
`build_error:` plus the stripped first error line, so it is stable across
timestamp variation before the header, arbitrary content after the line,
and leading/trailing (but not internal) whitespace of the message; and a
log with no recognizable pattern yields `none` rather than failing. -/
theorem signature_stability_amended
    (pre msg post pre₂ msg₂ post₂ log l₁ l₂ : Str) :
    (l₁ = l₂ → create_error_signature l₁ = create_error_signature l₂) ∧
    ('E' ∉ pre → '\n' ∉ msg →
      create_error_signature (pre ++ errHdr ++ msg ++ '\n' :: post) =
        some (str "build_error:" ++ pyStrip msg)) ∧
    ('E' ∉ pre → '\n' ∉ msg → 'E' ∉ pre₂ → '\n' ∉ msg₂ →
      pyStrip msg = pyStrip msg₂ →
      create_error_signature (pre ++ errHdr ++ msg ++ '\n' :: post) =
        create_error_signature (pre₂ ++ errHdr ++ msg₂ ++ '\n' :: post₂)) ∧
    (containsSub log errHdr = false → containsSub log jestHdr = false →
      create_error_signature log = none) := by
  refine ⟨fun h => by rw [h], ?_, ?_, ?_⟩
  · intro hE hmsg
    exact create_error_signature_header pre msg post hE hmsg
  · intro hE hmsg hE2 hmsg2 hstrip
    rw [create_error_signature_header pre msg post hE hmsg,
      create_error_signature_header pre₂ msg₂ post₂ hE2 hmsg2, hstrip]
  · intro h1 h2
    have hb : buildErrorMatch log = none := by
      unfold buildErrorMatch
      rw [splitOnce_none_of_not_contains errHdr log h1]
    have hj : jestMatch log = none := by
      unfold jestMatch
      rw [splitOnce_none_of_not_contains jestHdr log h2]
    unfold create_error_signature
    rw [hb, hj]

/-- Claim C7 (witness): two logs for the same defect differing in
timestamps, stack traces and edge whitespace of the message map to the same
signature, and a patternless log maps to none. -/
theorem signature_stability_amended_witness :
    create_error_signature
        (str "12:03 " ++ errHdr ++ str " boom " ++ '\n' :: str "stack one") =
      create_error_signature
        (str "12:04:55 " ++ errHdr ++ str "boom" ++ '\n' :: str "other trace") ∧
    create_error_signature (str "no failure here") = none :=
  ⟨(signature_stability_amended (str "12:03 ") (str " boom ") (str "stack one")
      (str "12:04:55 ") (str "boom") (str "other trace") [] [] []).2.2.1
      (by decide) (by decide) (by decide) (by decide) (by decide),
   (signature_stability_amended [] [] [] [] [] [] (str "no failure here") [] []).2.2.2
      (by decide) (by decide)⟩
